import Mathlib

/-!
Verification development for the OPC UA railway server script
(`opcua-server.py`) and the address-space server core its specification
describes.  Python strings are embedded as `List Char`, Python dicts as
association lists in first-insertion order, and the asynchronous library
calls as pure state-passing functions.
-/

set_option autoImplicit false

/-- A Python string, embedded as its list of characters. -/
abbrev PyStr := List Char

/-- Python `s.split(sep)` for a one-character separator `c`: splits at every
occurrence of `c`, keeping empty segments (`"".split(c) = [""]`,
`"a:".split(":") = ["a", ""]`). -/
def splitOnChar (c : Char) : PyStr → List PyStr
  | [] => [[]]
  | a :: rest =>
    if a = c then [] :: splitOnChar c rest
    else
      match splitOnChar c rest with
      | [] => [[a]]
      | g :: gs => (a :: g) :: gs

/-- Number of occurrences of a character in a Python string. -/
def countChar (c : Char) : PyStr → Nat
  | [] => 0
  | a :: rest => (if a = c then 1 else 0) + countChar c rest

/-- Python `seg.split(":")[0]`: the part of a segment before its first
colon (the username position). -/
def segUser (seg : PyStr) : PyStr :=
  (splitOnChar ':' seg).headD []

/-- Python `dict(...)` accepts an item only if it is a sequence of length
exactly two; any other length raises `ValueError`. -/
def toPair : List PyStr → Option (PyStr × PyStr)
  | [a, b] => some (a, b)
  | _ => none

/-- Python dict insertion: a repeated key keeps its first-insertion position
and is updated to the new value; a fresh key is appended. -/
def dictInsert (d : List (PyStr × PyStr)) (k v : PyStr) : List (PyStr × PyStr) :=
  if (d.find? (fun p => decide (p.1 = k))).isSome then
    d.map (fun p => if p.1 = k then (k, v) else p)
  else d ++ [(k, v)]

/-- Builds the Python dict from the colon-split comma segments, left to
right; `none` models the `ValueError` raised by `dict(...)` when a segment
does not split into exactly two parts. -/
def buildDict (acc : List (PyStr × PyStr)) : List PyStr → Option (List (PyStr × PyStr))
  | [] => some acc
  | seg :: rest =>
    match toPair (splitOnChar ':' seg) with
    | none => none
    | some p => buildDict (dictInsert acc p.1 p.2) rest

/-- `dict(user.split(":") for user in args.users.split(","))` from the
`__main__` block of `opcua-server.py`. -/
def parseUsers (s : PyStr) : Option (List (PyStr × PyStr)) :=
  buildDict [] (splitOnChar ',' s)

/-- Modelled from the spec: the authorization level granted to a session;
a role carries its write capability (§4.2, glossary).  The script itself
only distinguishes authenticated and anonymous sessions, both
write-capable. -/
structure Role where
  canWrite : Bool
deriving DecidableEq

/-- The write-capable role granted to a session whose credentials matched
the table (spec §4.2: minimum `User`). -/
def userRole : Role := ⟨true⟩

/-- The write-capable role granted to every session when no credential
table is configured (spec §4.2, and `allow_anonymous_write = True` in
`run_opcua_server`). -/
def anonymousRole : Role := ⟨true⟩

/-- Outcome of an authentication attempt: a granted role or rejection. -/
inductive AuthResult where
  | granted (r : Role)
  | rejected
deriving DecidableEq

/-- Python dict membership plus lookup: `username in self.users` together
with `self.users[username]`. -/
def lookupUser : List (PyStr × PyStr) → PyStr → Option PyStr
  | [], _ => none
  | (n, p) :: rest, u => if n = u then some p else lookupUser rest u

/-- `UserManager.user_manager` from `opcua-server.py`:
`username in self.users and self.users[username] == password`. -/
def user_manager (users : List (PyStr × PyStr)) (username password : PyStr) : Bool :=
  match lookupUser users username with
  | some p => decide (p = password)
  | none => false

/-- The access control gate assembled by `run_opcua_server`: with a falsy
(empty) credential table no user manager is installed and anonymous write
is allowed, so every attempt — `none` models an anonymous attempt — is
granted the write-capable anonymous role; with a non-empty table the
boolean `user_manager` callback decides, a match yielding the
write-capable user role and anything else a rejection. -/
def authenticate (users : List (PyStr × PyStr)) (attempt : Option (PyStr × PyStr)) : AuthResult :=
  if users.isEmpty then .granted anonymousRole
  else
    match attempt with
    | none => .rejected
    | some (u, p) => if user_manager users u p then .granted userRole else .rejected

/-- `ua.SecurityPolicyType` values used by the script. -/
inductive SecurityPolicyType where
  | NoSecurity
deriving DecidableEq

/-- The configuration `run_opcua_server` leaves on the `Server` object:
`securityPolicy = none` and `allowAnonymousWrite = none` mean the library
default, i.e. the attribute was never assigned. -/
structure ServerSetup where
  securityPolicy : Option (List SecurityPolicyType)
  userManagerInstalled : Bool
  allowAnonymousWrite : Option Bool
deriving DecidableEq

/-- Python truthiness of the `users` argument: `None` and the empty dict
are falsy. -/
def pyTruthy (users : Option (List (PyStr × PyStr))) : Bool :=
  match users with
  | none => false
  | some l => !l.isEmpty

/-- Lines 62–72 of `run_opcua_server`: `if users:` installs the security
policy `[NoSecurity]` and the `user_manager` callback; `if not users:`
sets `allow_anonymous_write = True`. -/
def configureServer (users : Option (List (PyStr × PyStr))) : ServerSetup :=
  if pyTruthy users then
    { securityPolicy := some [SecurityPolicyType.NoSecurity]
      userManagerInstalled := true
      allowAnonymousWrite := none }
  else
    { securityPolicy := none
      userManagerInstalled := false
      allowAnonymousWrite := some true }

/-- The `__main__` block: `users = dict(...) if args.users else None`,
then the server is started.  `none` models the `ValueError` escaping
before `asyncio.run` is reached, so no server object is ever created. -/
def mainStartup (usersArg : Option PyStr) : Option ServerSetup :=
  match usersArg with
  | none => some (configureServer none)
  | some s =>
    if s.isEmpty then some (configureServer none)
    else
      match parseUsers s with
      | none => none
      | some d => some (configureServer (some d))

/-- The key part of a node identifier: numeric (used for the objects and
variables the script creates with explicit `NodeId(n, idx)`) or string
(the identifier the library derives for `add_folder(idx, "Railway")`). -/
inductive NodeKey where
  | num (n : Nat)
  | str (s : String)
deriving DecidableEq

/-- A node identifier: namespace index plus key (spec §3). -/
structure NodeId where
  ns : Nat
  key : NodeKey
deriving DecidableEq

/-- Node kinds in the address space (spec §3). -/
inductive NodeKind where
  | Folder
  | Object
  | Variable
deriving DecidableEq

/-- Modelled from the spec: an address-space node (§3).  Variables carry a
current value (the script declares `Int64` variables), a writability flag
and a revision counter; for folders and objects those fields stay at their
initial values.  `parent = none` denotes the implicit root `Objects`
node. -/
structure Node where
  id : NodeId
  name : String
  kind : NodeKind
  parent : Option NodeId
  value : Int
  writable : Bool
  revision : Nat
deriving DecidableEq

/-- Modelled from the spec: the Address Space Store error taxonomy (§7),
restricted to the store operations. -/
inductive StoreError where
  | DuplicateIdError
  | ParentNotFoundError
  | NodeNotFoundError
  | NotWritableError
  | AuthorizationError
deriving DecidableEq

/-- The store is the node list in creation order. -/
abbrev Store := List Node

/-- Looks a node up by identifier. -/
def findNode : Store → NodeId → Option Node
  | [], _ => none
  | n :: rest, nid => if n.id = nid then some n else findNode rest nid

/-- Replaces the node with identifier `nid` by `f` applied to it, leaving
every other node unchanged. -/
def updateNode (st : Store) (nid : NodeId) (f : Node → Node) : Store :=
  st.map (fun n => if n.id = nid then f n else n)

/-- Modelled from the spec: `createFolder(namespace, name)` (§4.1); the
folder hangs under the implicit root and its identifier is the
library-derived string key. -/
def createFolder (st : Store) (ns : Nat) (name : String) : Except StoreError (Store × NodeId) :=
  let nid : NodeId := ⟨ns, .str name⟩
  match findNode st nid with
  | some _ => .error .DuplicateIdError
  | none =>
      .ok (st ++ [{ id := nid, name := name, kind := .Folder, parent := none,
                    value := 0, writable := false, revision := 0 }], nid)

/-- Modelled from the spec: `createObject(parentId, id, name)` (§4.1). -/
def createObject (st : Store) (parentId : NodeId) (nid : NodeId) (name : String) :
    Except StoreError (Store × NodeId) :=
  match findNode st nid with
  | some _ => .error .DuplicateIdError
  | none =>
      match findNode st parentId with
      | none => .error .ParentNotFoundError
      | some _ =>
          .ok (st ++ [{ id := nid, name := name, kind := .Object, parent := some parentId,
                        value := 0, writable := false, revision := 0 }], nid)

/-- Modelled from the spec: `createVariable(parentId, id, name,
initialValue, writable)` (§4.1). -/
def createVariable (st : Store) (parentId : NodeId) (nid : NodeId) (name : String)
    (initialValue : Int) (writable : Bool) : Except StoreError (Store × NodeId) :=
  match findNode st nid with
  | some _ => .error .DuplicateIdError
  | none =>
      match findNode st parentId with
      | none => .error .ParentNotFoundError
      | some _ =>
          .ok (st ++ [{ id := nid, name := name, kind := .Variable, parent := some parentId,
                        value := initialValue, writable := writable, revision := 0 }], nid)

/-- Modelled from the spec: `setWritable(nodeId, bool)` (§4.1), the
`set_writable()` calls of the script. -/
def setWritable (st : Store) (nid : NodeId) (b : Bool) : Store :=
  updateNode st nid (fun n => { n with writable := b })

/-- Modelled from the spec: `readValue(nodeId)` (§4.1). -/
def readValue (st : Store) (nid : NodeId) : Except StoreError Int :=
  match findNode st nid with
  | some n => .ok n.value
  | none => .error .NodeNotFoundError

/-- The revision counter of a node, when it exists. -/
def nodeRevision (st : Store) (nid : NodeId) : Option Nat :=
  (findNode st nid).map (fun n => n.revision)

/-- Modelled from the spec: the change record a successful write hands to
the Subscription Engine — node id, old value, new value, revision
(§4.1). -/
structure ChangeEvent where
  node : NodeId
  oldValue : Int
  newValue : Int
  revision : Nat
deriving DecidableEq

/-- Modelled from the spec: `writeValue(nodeId, newValue, requesterRole)`
(§4.1).  Error cases return the store untouched; on success the value is
replaced, the revision counter incremented, and the change record is
returned to the caller together with the new store — the record is thus
produced before the call returns. -/
def writeValue (st : Store) (nid : NodeId) (v : Int) (role : Role) :
    Except StoreError ChangeEvent × Store :=
  match findNode st nid with
  | none => (.error .NodeNotFoundError, st)
  | some n =>
      if n.writable = false then (.error .NotWritableError, st)
      else if role.canWrite = false then (.error .AuthorizationError, st)
      else
        (.ok ⟨nid, n.value, v, n.revision + 1⟩,
         updateNode st nid (fun m => { m with value := v, revision := m.revision + 1 }))

/-- Runs a sequence of writes to the same node, collecting the change
records in call order; `none` if any write fails. -/
def writeSeq (st : Store) (nid : NodeId) (role : Role) :
    List Int → Option (Store × List ChangeEvent)
  | [] => some (st, [])
  | v :: vs =>
      match writeValue st nid v role with
      | (.ok ch, st') =>
          match writeSeq st' nid role vs with
          | some (st'', chs) => some (st'', ch :: chs)
          | none => none
      | (.error _, _) => none

/-- The consecutive run `[r, r+1, ..., r+k-1]`. -/
def consecFrom (r : Nat) : Nat → List Nat
  | 0 => []
  | k + 1 => r :: consecFrom (r + 1) k

/-- Lines 36–57 of `run_opcua_server`: the Railway folder, the Lights and
Turnouts objects, their four `Int64` variables initialised to 0, and the
four `set_writable()` calls, in source order. -/
def startupStore (idx : Nat) : Except StoreError Store := do
  let (st, railway) ← createFolder [] idx "Railway"
  let (st, lights) ← createObject st railway ⟨idx, .num 2001⟩ "Lights"
  let (st, turnouts) ← createObject st railway ⟨idx, .num 2002⟩ "Turnouts"
  let (st, leftTurnout) ← createVariable st turnouts ⟨idx, .num 2003⟩ "LeftTurnout" 0 false
  let (st, rightTurnout) ← createVariable st turnouts ⟨idx, .num 2004⟩ "RightTurnout" 0 false
  let (st, leftLights) ← createVariable st lights ⟨idx, .num 2005⟩ "LeftLights" 0 false
  let (st, rightLights) ← createVariable st lights ⟨idx, .num 2006⟩ "RightLights" 0 false
  let st := setWritable st leftLights true
  let st := setWritable st rightLights true
  let st := setWritable st leftTurnout true
  let st := setWritable st rightTurnout true
  pure st

/-- Modelled from the spec: the per-subscription state machine
`Active → Deleting → Deleted` (§4.3); `Deleting` is the transient phase
inside `deleteSubscription`, which in this sequential model completes
atomically. -/
inductive SubState where
  | Active
  | Deleting
  | Deleted
deriving DecidableEq

/-- Modelled from the spec: a subscription — sampling interval, state, and
the map from subscription-local handle to target variable (§3, §4.3).
The sink is identified by the subscription id in each delivery. -/
structure Subscription where
  id : Nat
  samplingIntervalMs : Nat
  state : SubState
  handles : List (Nat × NodeId)
deriving DecidableEq

/-- Modelled from the spec: the Subscription Engine error taxonomy (§7). -/
inductive SubError where
  | SubscriptionNotFoundError
  | NodeNotFoundError
  | HandleNotFoundError
deriving DecidableEq

/-- Modelled from the spec: the Subscription Engine state — all
subscriptions plus fresh-id counters (ids are never reused, §4.3). -/
structure Engine where
  subs : List Subscription
  nextSubId : Nat
  nextHandleId : Nat
deriving DecidableEq

/-- Looks a subscription up by id. -/
def findSub (e : Engine) (sid : Nat) : Option Subscription :=
  e.subs.find? (fun s => decide (s.id = sid))

/-- Modelled from the spec: `createSubscription(samplingIntervalMs, sink)`
(§4.3); allocates a fresh id, initial state `Active`. -/
def createSubscription (e : Engine) (intervalMs : Nat) : Engine × Nat :=
  ({ e with subs := e.subs ++ [⟨e.nextSubId, intervalMs, .Active, []⟩],
            nextSubId := e.nextSubId + 1 },
   e.nextSubId)

/-- Modelled from the spec: `subscribeDataChange(subscriptionId, nodeId)`
(§4.3); checks the subscription is live and the node exists, then
registers a fresh handle for the node. -/
def subscribeDataChange (e : Engine) (st : Store) (sid : Nat) (nid : NodeId) :
    Except SubError (Engine × Nat) :=
  match findSub e sid with
  | none => .error .SubscriptionNotFoundError
  | some s =>
      if s.state = SubState.Active then
        match findNode st nid with
        | none => .error .NodeNotFoundError
        | some _ =>
            .ok ({ e with
                    subs := e.subs.map (fun s' =>
                      if s'.id = sid then { s' with handles := s'.handles ++ [(e.nextHandleId, nid)] }
                      else s'),
                    nextHandleId := e.nextHandleId + 1 },
                 e.nextHandleId)
      else .error .SubscriptionNotFoundError

/-- Modelled from the spec: `unsubscribe(subscriptionId, handleId)` (§4.3);
removes the handle, failing with `HandleNotFoundError` when unknown. -/
def unsubscribe (e : Engine) (sid hid : Nat) : Except SubError Engine :=
  match findSub e sid with
  | none => .error .SubscriptionNotFoundError
  | some s =>
      if (s.handles.find? (fun h => decide (h.1 = hid))).isSome then
        .ok { e with
                subs := e.subs.map (fun s' =>
                  if s'.id = sid then
                    { s' with handles := s'.handles.filter (fun h => decide (¬ h.1 = hid)) }
                  else s') }
      else .error .HandleNotFoundError

/-- Modelled from the spec: `deleteSubscription(subscriptionId)` (§4.3);
removes every remaining handle and reaches the terminal `Deleted` state. -/
def deleteSubscription (e : Engine) (sid : Nat) : Except SubError Engine :=
  match findSub e sid with
  | none => .error .SubscriptionNotFoundError
  | some _ =>
      .ok { e with
              subs := e.subs.map (fun s' =>
                if s'.id = sid then { s' with handles := [], state := .Deleted }
                else s') }

/-- One notification handed to a subscription's sink: the owning
subscription, the handle it was registered under, and the change. -/
structure Delivery where
  subId : Nat
  handleId : Nat
  change : ChangeEvent
deriving DecidableEq

/-- The deliveries one subscription receives for one change: nothing
unless it is `Active`; otherwise one delivery per handle registered for
the changed node, in registration order. -/
def subDeliveries (s : Subscription) (c : ChangeEvent) : List Delivery :=
  if s.state = SubState.Active then
    (s.handles.filter (fun h => decide (h.2 = c.node))).map (fun h => ⟨s.id, h.1, c⟩)
  else []

/-- The deliveries a change produces over a list of subscriptions, in
subscription order. -/
def notifySubs (subs : List Subscription) (c : ChangeEvent) : List Delivery :=
  (subs.map (fun s => subDeliveries s c)).flatten

/-- Modelled from the spec: delivery of one store-level change — the
engine looks up all handles registered for that node across all `Active`
subscriptions and invokes each sink once per handle (§4.3). -/
def notifyChange (e : Engine) (c : ChangeEvent) : List Delivery :=
  notifySubs e.subs c

/-- Delivery of a sequence of store changes, in the order the store
emitted them (§4.3: global per-node revision order). -/
def notifySeq (e : Engine) (cs : List ChangeEvent) : List Delivery :=
  (cs.map (fun c => notifyChange e c)).flatten

/-- Events observable during server teardown. -/
inductive TeardownEvent where
  | unsubscribed (sid hid : Nat)
  | subDeleted (sid : Nat)
  | addressSpaceReleased
deriving DecidableEq

/-- Why the run loop exited: cooperative cancellation, an interrupt
signal delivered as an exception, or an error raised in the loop. -/
inductive ExitCause where
  | cancelled
  | signalled
  | errored
deriving DecidableEq

/-- One `subscription.unsubscribe(handle)` call of the teardown loop.  A
handle already removed is skipped (spec §4.3: idempotent-safe removal;
§4.4: deletion must be safe after individual removals). -/
def unsubStep (sid : Nat) (e : Engine) (hid : Nat) : Engine :=
  match unsubscribe e sid hid with
  | .ok e' => e'
  | .error _ => e

/-- The `finally` block of `run_opcua_server` (lines 88–91): unsubscribe
every collected handle, then delete the subscription. -/
def shutdownSub (e : Engine) (sid : Nat) (hids : List Nat) : Engine × List TeardownEvent :=
  let e1 := hids.foldl (unsubStep sid) e
  let e2 := match deleteSubscription e1 sid with
    | .ok e' => e'
    | .error _ => e1
  (e2, hids.map (fun hid => TeardownEvent.unsubscribed sid hid) ++ [.subDeleted sid])

/-- Modelled from the spec: the exit path of `run_opcua_server` — whatever
made the `while True` loop exit, the `try`/`finally` semantics run the
teardown of the subscription to completion, and the `async with server`
exit then releases the address space, strictly afterwards (§4.4, §6). -/
def runServerExit (e : Engine) (sid : Nat) (hids : List Nat) (cause : ExitCause) :
    Engine × List TeardownEvent × ExitCause :=
  let p := shutdownSub e sid hids
  (p.1, p.2 ++ [.addressSpaceReleased], cause)

/-- The concrete `--users` argument `"a:1,a:2"`: two well-formed segments
sharing the username `a`. -/
def usersArgDup : PyStr := "a:1,a:2".toList

/-- A one-variable demonstration store: a writable `LeftTurnout`-style
variable at value 0, revision 0. -/
def demoId : NodeId := ⟨2, .num 2003⟩

def demoNode : Node :=
  { id := demoId, name := "LeftTurnout", kind := .Variable, parent := none,
    value := 0, writable := true, revision := 0 }

def demoStore : Store := [demoNode]

/-- The same variable with its writability flag cleared. -/
def demoNodeRO : Node := { demoNode with writable := false }

def demoStoreRO : Store := [demoNodeRO]

/-- A demonstration engine: one active subscription (id 7) holding handle 1
on the demonstration variable. -/
def demoSub : Subscription := ⟨7, 100, SubState.Active, [(1, demoId)]⟩

def demoEngine : Engine := ⟨[demoSub], 8, 2⟩

/-- The demonstration engine after its subscription is deleted. -/
def demoEngineDeleted : Engine := ⟨[⟨7, 100, SubState.Deleted, []⟩], 8, 2⟩

/-- The change emitted by the first demonstration write. -/
def demoChange : ChangeEvent := ⟨demoId, 0, 1, 1⟩

/-! ### Helper lemmas -/

theorem splitOnChar_ne_nil (c : Char) (s : PyStr) : splitOnChar c s ≠ [] := by
  cases s with
  | nil => simp [splitOnChar]
  | cons a rest =>
      simp only [splitOnChar]
      split
      · simp
      · split <;> simp

theorem length_splitOnChar (c : Char) (s : PyStr) :
    (splitOnChar c s).length = countChar c s + 1 := by
  induction s with
  | nil => simp [splitOnChar, countChar]
  | cons a rest ih =>
      simp only [splitOnChar, countChar]
      by_cases hac : a = c
      · simp [hac, ih]; omega
      · simp only [hac, if_neg, if_false]
        cases hr : splitOnChar c rest with
        | nil => exact absurd hr (splitOnChar_ne_nil c rest)
        | cons g gs =>
            simp only [List.length_cons]
            have := ih
            rw [hr] at this
            simp only [List.length_cons] at this
            simpa [hac] using this

theorem toPair_isSome_iff (parts : List PyStr) :
    (toPair parts).isSome = true ↔ parts.length = 2 := by
  match parts with
  | [] => simp [toPair]
  | [a] => simp [toPair]
  | [a, b] => simp [toPair]
  | a :: b :: c :: rest => simp [toPair]

theorem segPair_isSome_iff (seg : PyStr) :
    (toPair (splitOnChar ':' seg)).isSome = true ↔ countChar ':' seg = 1 := by
  rw [toPair_isSome_iff, length_splitOnChar]
  omega

theorem buildDict_isSome_iff (segs : List PyStr) : ∀ acc : List (PyStr × PyStr),
    (buildDict acc segs).isSome = true ↔
      ∀ seg ∈ segs, (toPair (splitOnChar ':' seg)).isSome = true := by
  induction segs with
  | nil => intro acc; simp [buildDict]
  | cons seg rest ih =>
      intro acc
      simp only [buildDict]
      cases hp : toPair (splitOnChar ':' seg) with
      | none => simp [hp]
      | some p => simp [hp, ih]

theorem dictInsert_fresh (d : List (PyStr × PyStr)) (k v : PyStr)
    (h : k ∉ d.map Prod.fst) : dictInsert d k v = d ++ [(k, v)] := by
  unfold dictInsert
  have : d.find? (fun p => decide (p.1 = k)) = none := by
    apply List.find?_eq_none.mpr
    intro p hp
    simp only [decide_eq_true_eq]
    intro hk
    exact h (List.mem_map.mpr ⟨p, hp, hk⟩)
  simp [this]

theorem buildDict_length (segs : List PyStr) :
    ∀ acc d : List (PyStr × PyStr),
      buildDict acc segs = some d →
      (segs.map segUser).Nodup →
      (∀ u ∈ segs.map segUser, u ∉ acc.map Prod.fst) →
      d.length = acc.length + segs.length := by
  induction segs with
  | nil =>
      intro acc d h _ _
      simp only [buildDict, Option.some.injEq] at h
      simp [← h]
  | cons seg rest ih =>
      intro acc d h hnd hdisj
      simp only [buildDict] at h
      cases hp : toPair (splitOnChar ':' seg) with
      | none => rw [hp] at h; exact absurd h (by simp)
      | some p =>
          rw [hp] at h
          have hkey : p.1 = segUser seg := by
            have h2 : splitOnChar ':' seg = [p.1, p.2] := by
              match hsp : splitOnChar ':' seg with
              | [] => rw [hsp] at hp; simp [toPair] at hp
              | [a] => rw [hsp] at hp; simp [toPair] at hp
              | [a, b] =>
                  rw [hsp] at hp
                  simp only [toPair, Option.some.injEq] at hp
                  rw [← hp]
              | a :: b :: c :: r => rw [hsp] at hp; simp [toPair] at hp
            simp [segUser, h2]
          simp only [List.map_cons, List.nodup_cons] at hnd
          have hfresh : p.1 ∉ acc.map Prod.fst := by
            apply hdisj
            simp [hkey]
          replace h : buildDict (dictInsert acc p.1 p.2) rest = some d := h
          rw [dictInsert_fresh acc p.1 p.2 hfresh] at h
          have := ih (acc ++ [(p.1, p.2)]) d h hnd.2 ?_
          · simp only [List.length_append, List.length_cons, List.length_nil] at this ⊢
            omega
          · intro u hu
            simp only [List.map_append, List.map_cons, List.map_nil]
            intro hmem
            rcases List.mem_append.mp hmem with hacc | hone
            · exact hdisj u (by simp [hu]) hacc
            · simp only [List.mem_singleton] at hone
              rw [hone, hkey] at hu
              exact hnd.1 hu

theorem user_manager_eq (users : List (PyStr × PyStr)) (u p : PyStr) :
    user_manager users u p = decide (lookupUser users u = some p) := by
  unfold user_manager
  cases hl : lookupUser users u with
  | none => simp
  | some q => rw [decide_eq_decide]; simp

theorem authenticate_nonempty (users : List (PyStr × PyStr)) (u p : PyStr)
    (hemp : users.isEmpty = false) :
    authenticate users (some (u, p)) =
      if lookupUser users u = some p then .granted userRole else .rejected := by
  unfold authenticate
  rw [hemp]
  simp only [Bool.false_eq_true, if_false, user_manager_eq]
  by_cases h : lookupUser users u = some p <;> simp [h]

theorem isEmpty_false_of_ne_nil {α : Type} {l : List α} (h : l ≠ []) :
    l.isEmpty = false := by
  cases l with
  | nil => exact absurd rfl h
  | cons a t => rfl

/-! ### C1: exact-match authentication against a non-empty table -/

/-- C1: for every configured non-empty credential table and every
(username, secret) pair, `authenticate` grants the associated write-capable
role (minimum `User`) exactly when the username is present and the secret
equals the stored secret; any mismatch — unknown username or wrong
secret — is rejected. -/
theorem C1_authenticate_exact_match (users : List (PyStr × PyStr)) (u s : PyStr)
    (hne : users ≠ []) :
    (authenticate users (some (u, s)) = .granted userRole ↔ lookupUser users u = some s)
    ∧ (authenticate users (some (u, s)) = .rejected ↔ ¬ lookupUser users u = some s)
    ∧ userRole.canWrite = true := by
  rw [authenticate_nonempty users u s (isEmpty_false_of_ne_nil hne)]
  by_cases h : lookupUser users u = some s <;> simp [h, userRole]

/-- Witness for C1 at the spec's own example table `{alice: "pw1"}`. -/
theorem C1_authenticate_exact_match_witness :
    ([("alice".toList, "pw1".toList)] : List (PyStr × PyStr)) ≠ []
    ∧ ((authenticate [("alice".toList, "pw1".toList)] (some ("alice".toList, "pw1".toList)) =
          .granted userRole ↔
        lookupUser [("alice".toList, "pw1".toList)] "alice".toList = some "pw1".toList)
      ∧ (authenticate [("alice".toList, "pw1".toList)] (some ("alice".toList, "pw1".toList)) =
          .rejected ↔
        ¬ lookupUser [("alice".toList, "pw1".toList)] "alice".toList = some "pw1".toList)
      ∧ userRole.canWrite = true) :=
  ⟨by decide, C1_authenticate_exact_match _ _ _ (by decide)⟩

/-! ### C2: anonymous-allowed policy with no credential table -/

/-- C2: with an empty or absent credential table every authentication
attempt — including anonymous — succeeds with the default write-capable
`Anonymous` role; with a table configured, only matched credentials obtain
the write-capable role. -/
theorem C2_anonymous_policy :
    (∀ u p : PyStr, authenticate [] (some (u, p)) = .granted anonymousRole)
    ∧ authenticate [] none = .granted anonymousRole
    ∧ anonymousRole.canWrite = true
    ∧ (∀ (users : List (PyStr × PyStr)) (att : Option (PyStr × PyStr)) (r : Role),
        users ≠ [] → authenticate users att = .granted r →
        r.canWrite = true ∧ ∃ u p, att = some (u, p) ∧ lookupUser users u = some p) := by
  refine ⟨fun u p => rfl, rfl, rfl, ?_⟩
  intro users att r hne hgr
  have hemp : users.isEmpty = false := isEmpty_false_of_ne_nil hne
  cases att with
  | none =>
      unfold authenticate at hgr
      rw [hemp] at hgr
      exact absurd hgr (by simp)
  | some up =>
      obtain ⟨u, p⟩ := up
      rw [authenticate_nonempty users u p hemp] at hgr
      by_cases hl : lookupUser users u = some p
      · rw [if_pos hl] at hgr
        have hr : r = userRole := by cases hgr; rfl
        exact ⟨by rw [hr]; rfl, u, p, rfl, hl⟩
      · rw [if_neg hl] at hgr
        exact absurd hgr (by simp)

/-- Witness for C2: a matched credential on the table `{alice: "pw1"}`
obtains the write-capable role. -/
theorem C2_anonymous_policy_witness :
    ([("alice".toList, "pw1".toList)] : List (PyStr × PyStr)) ≠ []
    ∧ (userRole.canWrite = true
      ∧ ∃ u p, (some ("alice".toList, "pw1".toList) : Option (PyStr × PyStr)) = some (u, p)
          ∧ lookupUser [("alice".toList, "pw1".toList)] u = some p) :=
  ⟨by decide, C2_anonymous_policy.2.2.2 _ _ _ (by decide) (by decide)⟩

/-! ### C10: security policy and user-manager installation -/

/-- C10: exactly when a non-empty credential table is supplied, the
security policy becomes the single-element list `[NoSecurity]` and the
user-manager callback is installed; otherwise the policy stays at the
library default and `allow_anonymous_write` is set to `True` instead. -/
theorem C10_configuration (users : Option (List (PyStr × PyStr))) :
    (pyTruthy users = true ↔
      (configureServer users).securityPolicy = some [SecurityPolicyType.NoSecurity]
      ∧ (configureServer users).userManagerInstalled = true)
    ∧ (pyTruthy users = false →
        (configureServer users).securityPolicy = none
        ∧ (configureServer users).allowAnonymousWrite = some true)
    ∧ (pyTruthy users = true → (configureServer users).allowAnonymousWrite = none) := by
  cases htr : pyTruthy users <;> simp [configureServer, htr]

/-- Witness for C10 at the one-user table. -/
theorem C10_configuration_witness :
    pyTruthy (some [("alice".toList, "pw1".toList)]) = true
    ∧ (configureServer (some [("alice".toList, "pw1".toList)])).allowAnonymousWrite = none :=
  ⟨by decide, (C10_configuration (some [("alice".toList, "pw1".toList)])).2.2 (by decide)⟩

/-! ### C9: the `--users` argument parse -/

/-- Counterexample to C9 as stated: on `--users "a:1,a:2"` every
comma-separated segment contains exactly one colon and the parse succeeds,
yet Python's `dict` collapses the duplicate username into a single entry,
so the table does not hold one entry per segment. -/
theorem C9_users_parse_counterexample :
    ¬ (((parseUsers usersArgDup).isSome = true
        ∧ ((parseUsers usersArgDup).getD []).length = (splitOnChar ',' usersArgDup).length)
      ↔ (∀ seg ∈ splitOnChar ',' usersArgDup, countChar ':' seg = 1)) := by
  decide

/-- C9 (amended): for every non-empty `--users` string the parse succeeds
exactly when every comma-separated segment contains exactly one colon — a
segment with zero or with two or more colons raises, aborting startup
before any server object is created; the resulting table holds one entry
per segment provided the segment usernames are pairwise distinct
(duplicates collapse onto one entry). -/
theorem C9_users_parse (s : PyStr) (hne : s ≠ []) :
    ((parseUsers s).isSome = true ↔ ∀ seg ∈ splitOnChar ',' s, countChar ':' seg = 1)
    ∧ (∀ d, parseUsers s = some d →
        ((splitOnChar ',' s).map segUser).Nodup →
        d.length = (splitOnChar ',' s).length)
    ∧ (parseUsers s = none → mainStartup (some s) = none) := by
  refine ⟨?_, ?_, ?_⟩
  · rw [parseUsers, buildDict_isSome_iff]
    constructor
    · intro h seg hseg
      exact (segPair_isSome_iff seg).mp (h seg hseg)
    · intro h seg hseg
      exact (segPair_isSome_iff seg).mpr (h seg hseg)
  · intro d hd hnd
    have := buildDict_length (splitOnChar ',' s) [] d hd hnd (by simp)
    simpa using this
  · intro hnone
    simp [mainStartup, isEmpty_false_of_ne_nil hne, hnone]

/-- Witness for C9 (amended) on the two-user argument
`"alice:pw1,bob:pw2"`. -/
theorem C9_users_parse_witness :
    "alice:pw1,bob:pw2".toList ≠ ([] : PyStr)
    ∧ (∀ d, parseUsers "alice:pw1,bob:pw2".toList = some d →
        ((splitOnChar ',' "alice:pw1,bob:pw2".toList).map segUser).Nodup →
        d.length = (splitOnChar ',' "alice:pw1,bob:pw2".toList).length) :=
  ⟨by decide, (C9_users_parse "alice:pw1,bob:pw2".toList (by decide)).2.1⟩

/-! ### Store lemmas -/

theorem findNode_updateNode (st : Store) (nid : NodeId) (f : Node → Node)
    (hf : ∀ n, (f n).id = n.id) :
    findNode (updateNode st nid f) nid = (findNode st nid).map f := by
  induction st with
  | nil => rfl
  | cons n rest ih =>
      simp only [updateNode, List.map_cons, findNode]
      by_cases h : n.id = nid
      · rw [if_pos h]
        have hid : (f n).id = nid := by rw [hf n, h]
        simp [findNode, hid, h]
      · rw [if_neg h]
        simp only [findNode, if_neg h]
        exact ih

theorem writeValue_ok (st : Store) (nid : NodeId) (v : Int) (role : Role)
    (ch : ChangeEvent) (st' : Store)
    (h : writeValue st nid v role = (.ok ch, st')) :
    ∃ n, findNode st nid = some n ∧ n.writable = true ∧ role.canWrite = true
      ∧ ch = ⟨nid, n.value, v, n.revision + 1⟩
      ∧ st' = updateNode st nid (fun m => { m with value := v, revision := m.revision + 1 }) := by
  unfold writeValue at h
  split at h
  · exact absurd h (by simp)
  next n hfn =>
    split at h
    next hw => exact absurd h (by simp)
    next hw =>
      split at h
      next hr => exact absurd h (by simp)
      next hr =>
        simp only [Prod.mk.injEq, Except.ok.injEq] at h
        exact ⟨n, hfn, by simpa using hw, by simpa using hr, h.1.symm, h.2.symm⟩

theorem mem_consecFrom {b : Nat} : ∀ (k r : Nat), b ∈ consecFrom r k → r ≤ b := by
  intro k
  induction k with
  | zero => intro r hb; simp [consecFrom] at hb
  | succ k ih =>
      intro r hb
      simp only [consecFrom, List.mem_cons] at hb
      rcases hb with hb | hb
      · omega
      · have := ih (r + 1) hb
        omega

theorem chain'_lt_consecFrom (k : Nat) : ∀ r : Nat, List.Chain' (· < ·) (consecFrom r k) := by
  induction k with
  | zero => intro r; exact List.chain'_nil
  | succ k ih =>
      intro r
      have h1 : consecFrom r (k + 1) = r :: consecFrom (r + 1) k := rfl
      rw [h1]
      apply List.Chain'.cons'
      · exact ih (r + 1)
      · intro b hb
        have := mem_consecFrom k (r + 1) (List.mem_of_mem_head? hb)
        omega

/-- The node as rewritten by a successful write. -/
theorem findNode_after_write (st : Store) (nid : NodeId) (v : Int) (n : Node)
    (hfn : findNode st nid = some n) :
    findNode (updateNode st nid (fun m => { m with value := v, revision := m.revision + 1 })) nid
      = some { n with value := v, revision := n.revision + 1 } := by
  rw [findNode_updateNode st nid
        (fun m => { m with value := v, revision := m.revision + 1 }) (fun m => rfl),
      hfn]
  rfl

theorem writeSeq_spec (vs : List Int) :
    ∀ (st : Store) (nid : NodeId) (role : Role) (st' : Store) (chs : List ChangeEvent) (n : Node),
      writeSeq st nid role vs = some (st', chs) →
      findNode st nid = some n →
      chs.map (fun c => c.newValue) = vs
      ∧ chs.map (fun c => c.revision) = consecFrom (n.revision + 1) vs.length := by
  induction vs with
  | nil =>
      intro st nid role st' chs n h _
      simp only [writeSeq, Option.some.injEq, Prod.mk.injEq] at h
      obtain ⟨-, h2⟩ := h
      subst h2
      simp [consecFrom]
  | cons v vs ih =>
      intro st nid role st' chs n h hfn
      unfold writeSeq at h
      split at h
      next ch st1 hw =>
        split at h
        next st2 chs2 hrest =>
          simp only [Option.some.injEq, Prod.mk.injEq] at h
          obtain ⟨rfl, rfl⟩ := h
          obtain ⟨m, hm, -, -, hch, hst1⟩ := writeValue_ok st nid v role ch st1 hw
          have hmn : m = n := by rw [hfn] at hm; exact (Option.some.inj hm).symm
          subst hmn
          have hfn1 : findNode st1 nid
              = some { m with value := v, revision := m.revision + 1 } := by
            rw [hst1]
            exact findNode_after_write st nid v m hfn
          obtain ⟨ih1, ih2⟩ := ih st1 nid role st2 chs2 _ hrest hfn1
          subst hch
          constructor
          · simp [ih1]
          · simp only [List.map_cons, List.length_cons]
            rw [ih2]
            rfl
        next hrest => exact absurd h (by simp)
      next e st1 hw => exact absurd h (by simp)

/-! ### C3: write success, revision counter and change ordering -/

/-- C3: a successful `writeValue` replaces the stored value, increments the
revision counter, and returns the change record (node id, old value, new
value, revision) to the caller before the call completes; over any sequence
of writes to the same variable the revision counters of the emitted changes
are the consecutive run starting one above the initial revision — strictly
increasing and matching call order. -/
theorem C3_write_revision_order :
    (∀ (st : Store) (nid : NodeId) (v : Int) (role : Role) (ch : ChangeEvent) (st' : Store),
        writeValue st nid v role = (.ok ch, st') →
        readValue st' nid = .ok v
        ∧ ∃ n, findNode st nid = some n
            ∧ ch = ⟨nid, n.value, v, n.revision + 1⟩
            ∧ nodeRevision st' nid = some (n.revision + 1)
            ∧ nodeRevision st nid = some n.revision)
    ∧ (∀ (vs : List Int) (st : Store) (nid : NodeId) (role : Role) (st' : Store)
          (chs : List ChangeEvent) (n : Node),
        writeSeq st nid role vs = some (st', chs) →
        findNode st nid = some n →
        chs.map (fun c => c.newValue) = vs
        ∧ chs.map (fun c => c.revision) = consecFrom (n.revision + 1) vs.length
        ∧ List.Chain' (fun a b => a.revision < b.revision) chs) := by
  constructor
  · intro st nid v role ch st' h
    obtain ⟨n, hfn, hw, hr, hch, hst'⟩ := writeValue_ok st nid v role ch st' h
    have hfn' := findNode_after_write st nid v n hfn
    rw [hst']
    refine ⟨?_, n, hfn, hch, ?_, ?_⟩
    · simp [readValue, hfn']
    · simp [nodeRevision, hfn']
    · simp [nodeRevision, hfn]
  · intro vs st nid role st' chs n h hfn
    obtain ⟨h1, h2⟩ := writeSeq_spec vs st nid role st' chs n h hfn
    refine ⟨h1, h2, ?_⟩
    have hc := chain'_lt_consecFrom vs.length (n.revision + 1)
    rw [← h2] at hc
    exact (List.chain'_map (fun c : ChangeEvent => c.revision)).mp hc

/-- Witness for C3: the spec's end-to-end scenario — write 1 then 7 to a
fresh variable, observing changes `0→1` (revision 1) then `1→7`
(revision 2). -/
theorem C3_write_revision_order_witness :
    writeSeq demoStore demoId userRole [1, 7]
      = some ([{ demoNode with value := 7, revision := 2 }],
              [⟨demoId, 0, 1, 1⟩, ⟨demoId, 1, 7, 2⟩])
    ∧ findNode demoStore demoId = some demoNode
    ∧ (([⟨demoId, 0, 1, 1⟩, ⟨demoId, 1, 7, 2⟩] : List ChangeEvent).map (fun c => c.newValue)
          = [1, 7]
      ∧ ([⟨demoId, 0, 1, 1⟩, ⟨demoId, 1, 7, 2⟩] : List ChangeEvent).map (fun c => c.revision)
          = consecFrom (demoNode.revision + 1) ([1, 7] : List Int).length
      ∧ List.Chain' (fun a b : ChangeEvent => a.revision < b.revision)
          [⟨demoId, 0, 1, 1⟩, ⟨demoId, 1, 7, 2⟩]) :=
  ⟨by decide, by decide,
   C3_write_revision_order.2 [1, 7] demoStore demoId userRole
     [{ demoNode with value := 7, revision := 2 }]
     [⟨demoId, 0, 1, 1⟩, ⟨demoId, 1, 7, 2⟩] demoNode (by decide) (by decide)⟩

/-! ### C5: failed writes leave the store untouched -/

/-- C5: `writeValue` on a non-writable variable fails with
`NotWritableError`, and `writeValue` by a role lacking write capability
fails with `AuthorizationError`; in both cases the returned store is
exactly the input store, so value and revision are unchanged. -/
theorem C5_write_error_atomicity :
    (∀ (st : Store) (nid : NodeId) (v : Int) (role : Role) (n : Node),
        findNode st nid = some n → n.writable = false →
        writeValue st nid v role = (.error .NotWritableError, st))
    ∧ (∀ (st : Store) (nid : NodeId) (v : Int) (role : Role) (n : Node),
        findNode st nid = some n → n.writable = true → role.canWrite = false →
        writeValue st nid v role = (.error .AuthorizationError, st)) := by
  constructor
  · intro st nid v role n hfn hw
    simp [writeValue, hfn, hw]
  · intro st nid v role n hfn hw hr
    simp [writeValue, hfn, hw, hr]

/-- Witness for C5: a write to the read-only variable fails with
`NotWritableError`, and a write by a non-write-capable role fails with
`AuthorizationError`; both leave the store as it was. -/
theorem C5_write_error_atomicity_witness :
    (findNode demoStoreRO demoId = some demoNodeRO
      ∧ demoNodeRO.writable = false
      ∧ writeValue demoStoreRO demoId 5 userRole = (.error .NotWritableError, demoStoreRO))
    ∧ (findNode demoStore demoId = some demoNode
      ∧ demoNode.writable = true
      ∧ (⟨false⟩ : Role).canWrite = false
      ∧ writeValue demoStore demoId 5 ⟨false⟩ = (.error .AuthorizationError, demoStore)) :=
  ⟨⟨by decide, by decide,
    C5_write_error_atomicity.1 demoStoreRO demoId 5 userRole demoNodeRO (by decide) (by decide)⟩,
   ⟨by decide, by decide, by decide,
    C5_write_error_atomicity.2 demoStore demoId 5 ⟨false⟩ demoNode
      (by decide) (by decide) (by decide)⟩⟩

/-! ### C4: the fixed startup address space -/

/-- C4: at startup the address space is exactly the fixed tree — the
folder "Railway" under the root, the objects "Lights" and "Turnouts"
beneath it, and the four writable integer variables "LeftTurnout",
"RightTurnout", "LeftLights", "RightLights" at initial value 0. -/
theorem C4_startup_address_space (idx : Nat) :
    startupStore idx = .ok
      [ { id := ⟨idx, .str "Railway"⟩, name := "Railway", kind := .Folder,
          parent := none, value := 0, writable := false, revision := 0 },
        { id := ⟨idx, .num 2001⟩, name := "Lights", kind := .Object,
          parent := some ⟨idx, .str "Railway"⟩, value := 0, writable := false, revision := 0 },
        { id := ⟨idx, .num 2002⟩, name := "Turnouts", kind := .Object,
          parent := some ⟨idx, .str "Railway"⟩, value := 0, writable := false, revision := 0 },
        { id := ⟨idx, .num 2003⟩, name := "LeftTurnout", kind := .Variable,
          parent := some ⟨idx, .num 2002⟩, value := 0, writable := true, revision := 0 },
        { id := ⟨idx, .num 2004⟩, name := "RightTurnout", kind := .Variable,
          parent := some ⟨idx, .num 2002⟩, value := 0, writable := true, revision := 0 },
        { id := ⟨idx, .num 2005⟩, name := "LeftLights", kind := .Variable,
          parent := some ⟨idx, .num 2001⟩, value := 0, writable := true, revision := 0 },
        { id := ⟨idx, .num 2006⟩, name := "RightLights", kind := .Variable,
          parent := some ⟨idx, .num 2001⟩, value := 0, writable := true, revision := 0 } ] := by
  simp [startupStore, createFolder, createObject, createVariable, setWritable,
        updateNode, findNode, bind, Except.bind, pure, Except.pure]

/-! ### Subscription engine lemmas -/

theorem mem_subDeliveries {d : Delivery} {s : Subscription} {c : ChangeEvent}
    (hd : d ∈ subDeliveries s c) :
    d.subId = s.id ∧ ∃ hh ∈ s.handles, d.handleId = hh.1 ∧ hh.2 = c.node := by
  unfold subDeliveries at hd
  by_cases hs : s.state = SubState.Active
  · rw [if_pos hs] at hd
    obtain ⟨hh, hmem, rfl⟩ := List.mem_map.mp hd
    obtain ⟨hmem', hnode⟩ := List.mem_filter.mp hmem
    exact ⟨rfl, hh, hmem', rfl, by simpa using hnode⟩
  · rw [if_neg hs] at hd
    simp at hd

theorem notifySubs_cons (s : Subscription) (rest : List Subscription) (c : ChangeEvent) :
    notifySubs (s :: rest) c = subDeliveries s c ++ notifySubs rest c := rfl

theorem notifySubs_filter_nil (p : Delivery → Bool) (c : ChangeEvent) :
    ∀ subs : List Subscription,
      (∀ s ∈ subs, (subDeliveries s c).filter p = []) →
      (notifySubs subs c).filter p = [] := by
  intro subs
  induction subs with
  | nil => intro _; rfl
  | cons s rest ih =>
      intro h
      rw [notifySubs_cons, List.filter_append, h s (by simp),
          ih (fun x hx => h x (by simp [hx]))]
      rfl

theorem subDeliveries_filter_ne (s : Subscription) (c : ChangeEvent) (sid : Nat)
    (h : s.id ≠ sid) :
    (subDeliveries s c).filter (fun d => decide (d.subId = sid)) = [] := by
  rw [List.filter_eq_nil_iff]
  intro d hd
  have h1 := (mem_subDeliveries hd).1
  simp [h1, h]

theorem subDeliveries_filter_self (s : Subscription) (c : ChangeEvent) :
    (subDeliveries s c).filter (fun d => decide (d.subId = s.id)) = subDeliveries s c := by
  rw [List.filter_eq_self]
  intro d hd
  simp [(mem_subDeliveries hd).1]

theorem notifySubs_filter_sub (c : ChangeEvent) :
    ∀ (subs : List Subscription) (s : Subscription),
      s ∈ subs → (subs.map (fun x => x.id)).Nodup →
      (notifySubs subs c).filter (fun d => decide (d.subId = s.id)) = subDeliveries s c := by
  intro subs
  induction subs with
  | nil => intro s hs _; simp at hs
  | cons a rest ih =>
      intro s hs hnd
      rw [List.map_cons, List.nodup_cons] at hnd
      rw [notifySubs_cons, List.filter_append]
      rcases List.mem_cons.mp hs with rfl | hs'
      · rw [subDeliveries_filter_self,
            notifySubs_filter_nil _ c rest
              (fun x hx => subDeliveries_filter_ne x c s.id
                (fun hxe => hnd.1 (hxe ▸ List.mem_map.mpr ⟨x, hx, rfl⟩))),
            List.append_nil]
      · have hne : a.id ≠ s.id := by
          intro he
          exact hnd.1 (he ▸ List.mem_map.mpr ⟨s, hs', rfl⟩)
        rw [subDeliveries_filter_ne a c s.id hne, ih s hs' hnd.2, List.nil_append]

theorem subDeliveries_active (s : Subscription) (c : ChangeEvent)
    (hact : s.state = SubState.Active) :
    subDeliveries s c
      = (s.handles.filter (fun h => decide (h.2 = c.node))).map
          (fun h => ⟨s.id, h.1, c⟩) := by
  unfold subDeliveries
  rw [if_pos hact]

theorem subDeliveries_not_active (s : Subscription) (c : ChangeEvent)
    (h : ¬ s.state = SubState.Active) : subDeliveries s c = [] := by
  unfold subDeliveries
  rw [if_neg h]

theorem filter_by_key (hid : Nat) (V : NodeId) (q : Nat × NodeId → Bool) :
    ∀ l : List (Nat × NodeId),
      (l.map Prod.fst).Nodup → (hid, V) ∈ l →
      l.filter (fun h => decide (h.1 = hid) && q h)
        = if q (hid, V) then [(hid, V)] else [] := by
  intro l
  induction l with
  | nil => intro _ h; simp at h
  | cons a rest ih =>
      intro hnd hmem
      rw [List.map_cons, List.nodup_cons] at hnd
      rcases List.mem_cons.mp hmem with rfl | hmem'
      · have hrest : rest.filter (fun h => decide (h.1 = hid) && q h) = [] := by
          rw [List.filter_eq_nil_iff]
          intro h hh hq
          rw [Bool.and_eq_true, decide_eq_true_eq] at hq
          exact hnd.1 (hq.1 ▸ List.mem_map.mpr ⟨h, hh, rfl⟩)
        cases hq' : q (hid, V)
        · simp [List.filter_cons, hq', hrest]
        · simp [List.filter_cons, hq', hrest]
      · have hane : ¬ a.1 = hid := by
          intro he
          apply hnd.1
          rw [he]
          exact List.mem_map.mpr ⟨(hid, V), hmem', rfl⟩
        simp only [List.filter_cons]
        rw [if_neg (by simp [hane])]
        exact ih hnd.2 hmem'

theorem notifySubs_filter_handle (subs : List Subscription) (s : Subscription)
    (hid : Nat) (V : NodeId) (c : ChangeEvent)
    (hs : s ∈ subs) (hnd : (subs.map (fun x => x.id)).Nodup)
    (hact : s.state = SubState.Active)
    (hh : (hid, V) ∈ s.handles) (hhnd : (s.handles.map Prod.fst).Nodup) :
    (notifySubs subs c).filter
        (fun d => decide (d.subId = s.id) && decide (d.handleId = hid))
      = if c.node = V then [⟨s.id, hid, c⟩] else [] := by
  have hsplit : (notifySubs subs c).filter
      (fun d => decide (d.subId = s.id) && decide (d.handleId = hid))
      = ((notifySubs subs c).filter (fun d => decide (d.subId = s.id))).filter
          (fun d => decide (d.handleId = hid)) := by
    rw [List.filter_filter]
    congr 1
    funext d
    rw [Bool.and_comm]
  rw [hsplit, notifySubs_filter_sub c subs s hs hnd, subDeliveries_active s c hact,
      List.filter_map]
  have hcomp : ((fun d : Delivery => decide (d.handleId = hid)) ∘
      (fun h : Nat × NodeId => (⟨s.id, h.1, c⟩ : Delivery)))
      = fun h : Nat × NodeId => decide (h.1 = hid) := rfl
  rw [hcomp, List.filter_filter,
      filter_by_key hid V (fun h => decide (h.2 = c.node)) s.handles hhnd hh]
  by_cases hcv : c.node = V
  · simp [hcv]
  · have hvc : ¬ V = c.node := fun he => hcv he.symm
    simp [hcv, hvc]

theorem filter_flatten {α : Type} (p : α → Bool) :
    ∀ ls : List (List α), ls.flatten.filter p = (ls.map (fun l => l.filter p)).flatten := by
  intro ls
  induction ls with
  | nil => rfl
  | cons l rest ih => simp [List.flatten_cons, List.filter_append, ih]

theorem map_change_flatten_if (sid hid : Nat) (V : NodeId) :
    ∀ cs : List ChangeEvent,
      ((cs.map (fun c => if c.node = V then ([⟨sid, hid, c⟩] : List Delivery) else [])).flatten).map
          (fun d => d.change)
        = cs.filter (fun c => decide (c.node = V)) := by
  intro cs
  induction cs with
  | nil => rfl
  | cons c rest ih =>
      by_cases hc : c.node = V <;>
        simp [List.flatten_cons, List.filter_cons, hc, ih]

theorem unsubscribe_ok (e e' : Engine) (sid hid : Nat)
    (h : unsubscribe e sid hid = .ok e') :
    e'.subs = e.subs.map (fun s' =>
      if s'.id = sid then
        { s' with handles := s'.handles.filter (fun hh => decide (¬ hh.1 = hid)) }
      else s') := by
  unfold unsubscribe at h
  split at h
  · exact absurd h (by simp)
  next s hfs =>
    split at h
    · rw [← Except.ok.inj h]
    · exact absurd h (by simp)

theorem deleteSubscription_ok (e e' : Engine) (sid : Nat)
    (h : deleteSubscription e sid = .ok e') :
    e'.subs = e.subs.map (fun s' =>
      if s'.id = sid then { s' with handles := [], state := SubState.Deleted }
      else s') := by
  unfold deleteSubscription at h
  split at h
  · exact absurd h (by simp)
  · rw [← Except.ok.inj h]

/-! ### C6: exactly-one delivery per handle, in write order -/

/-- C6: for a subscription with handles on a variable, one store change
yields exactly one delivery per handle registered for the changed node, in
registration order; over a change sequence the deliveries for one handle
are the changes of its node in emission (write) order; and after a
successful `unsubscribe` no further delivery carries that handle. -/
theorem C6_notification_per_handle :
    (∀ (e : Engine) (s : Subscription) (c : ChangeEvent),
        s ∈ e.subs → (e.subs.map (fun x => x.id)).Nodup → s.state = SubState.Active →
        (notifyChange e c).filter (fun d => decide (d.subId = s.id))
          = (s.handles.filter (fun h => decide (h.2 = c.node))).map
              (fun h => ⟨s.id, h.1, c⟩))
    ∧ (∀ (e : Engine) (s : Subscription) (hid : Nat) (V : NodeId) (cs : List ChangeEvent),
        s ∈ e.subs → (e.subs.map (fun x => x.id)).Nodup → s.state = SubState.Active →
        (hid, V) ∈ s.handles → (s.handles.map Prod.fst).Nodup →
        ((notifySeq e cs).filter
            (fun d => decide (d.subId = s.id) && decide (d.handleId = hid))).map
          (fun d => d.change)
          = cs.filter (fun c => decide (c.node = V)))
    ∧ (∀ (e e' : Engine) (sid hid : Nat) (c : ChangeEvent),
        unsubscribe e sid hid = .ok e' →
        (notifyChange e' c).filter
          (fun d => decide (d.subId = sid) && decide (d.handleId = hid)) = []) := by
  refine ⟨?_, ?_, ?_⟩
  · intro e s c hs hnd hact
    rw [notifyChange, notifySubs_filter_sub c e.subs s hs hnd, subDeliveries_active s c hact]
  · intro e s hid V cs hs hnd hact hh hhnd
    rw [notifySeq, filter_flatten, List.map_map]
    have hfn : ((fun l : List Delivery =>
          l.filter (fun d => decide (d.subId = s.id) && decide (d.handleId = hid)))
        ∘ (fun c => notifyChange e c))
        = fun c : ChangeEvent =>
            if c.node = V then ([⟨s.id, hid, c⟩] : List Delivery) else [] := by
      funext c
      exact notifySubs_filter_handle e.subs s hid V c hs hnd hact hh hhnd
    rw [hfn, map_change_flatten_if]
  · intro e e' sid hid c h
    have hsubs := unsubscribe_ok e e' sid hid h
    rw [notifyChange, hsubs]
    apply notifySubs_filter_nil
    intro x hx
    obtain ⟨y, hy, rfl⟩ := List.mem_map.mp hx
    by_cases hyid : y.id = sid
    · rw [if_pos hyid, List.filter_eq_nil_iff]
      intro d hd hq
      rw [Bool.and_eq_true, decide_eq_true_eq, decide_eq_true_eq] at hq
      obtain ⟨-, hh, hhm, hdh, -⟩ := mem_subDeliveries hd
      have hne := (List.mem_filter.mp hhm).2
      rw [decide_eq_true_eq] at hne
      exact hne (hdh ▸ hq.2)
    · rw [if_neg hyid, List.filter_eq_nil_iff]
      intro d hd hq
      rw [Bool.and_eq_true, decide_eq_true_eq, decide_eq_true_eq] at hq
      exact hyid ((mem_subDeliveries hd).1 ▸ hq.1)

/-- Witness for C6: one change on the demonstration engine is delivered
exactly once, for its single handle. -/
theorem C6_notification_per_handle_witness :
    (demoSub ∈ demoEngine.subs
      ∧ (demoEngine.subs.map (fun x => x.id)).Nodup
      ∧ demoSub.state = SubState.Active)
    ∧ (notifyChange demoEngine demoChange).filter
        (fun d => decide (d.subId = demoSub.id))
        = (demoSub.handles.filter (fun h => decide (h.2 = demoChange.node))).map
            (fun h => ⟨demoSub.id, h.1, demoChange⟩) :=
  ⟨⟨by decide, by decide, by decide⟩,
   C6_notification_per_handle.1 demoEngine demoSub demoChange
     (by decide) (by decide) (by decide)⟩

/-! ### C7: a deleted subscription receives nothing -/

/-- C7: after `deleteSubscription` completes, any further store change
produces zero deliveries to that subscription's sink. -/
theorem C7_deleted_subscription_silent (e e' : Engine) (sid : Nat)
    (h : deleteSubscription e sid = .ok e') :
    ∀ c : ChangeEvent,
      (notifyChange e' c).filter (fun d => decide (d.subId = sid)) = [] := by
  intro c
  have hsubs := deleteSubscription_ok e e' sid h
  rw [notifyChange, hsubs]
  apply notifySubs_filter_nil
  intro x hx
  obtain ⟨y, hy, rfl⟩ := List.mem_map.mp hx
  by_cases hyid : y.id = sid
  · rw [if_pos hyid, subDeliveries_not_active _ _ (by simp)]
    rfl
  · rw [if_neg hyid]
    exact subDeliveries_filter_ne y c sid hyid

/-- Witness for C7: deleting the demonstration subscription silences its
sink for the demonstration change. -/
theorem C7_deleted_subscription_silent_witness :
    deleteSubscription demoEngine 7 = .ok demoEngineDeleted
    ∧ (notifyChange demoEngineDeleted demoChange).filter
        (fun d => decide (d.subId = 7)) = [] :=
  ⟨by rfl,
   C7_deleted_subscription_silent demoEngine demoEngineDeleted 7 (by rfl) demoChange⟩

/-! ### Teardown lemmas -/

theorem find?_map_pres {α : Type} (p : α → Bool) (g : α → α) (hg : ∀ a, p (g a) = p a) :
    ∀ l : List α, (l.map g).find? p = (l.find? p).map g := by
  intro l
  induction l with
  | nil => rfl
  | cons a rest ih =>
      cases hpa : p a
      · rw [List.map_cons,
            List.find?_cons_of_neg _ (by simp [hg, hpa]),
            List.find?_cons_of_neg _ (by simp [hpa]),
            ih]
      · rw [List.map_cons,
            List.find?_cons_of_pos _ (by simp [hg, hpa]),
            List.find?_cons_of_pos _ hpa]
        rfl

theorem find?_sub_map (subs : List Subscription) (sid : Nat) (g : Subscription → Subscription)
    (hg : ∀ x, (g x).id = x.id) :
    (subs.map g).find? (fun s' => decide (s'.id = sid))
      = (subs.find? (fun s' => decide (s'.id = sid))).map g :=
  find?_map_pres _ g (fun a => by rw [hg a]) subs

theorem findSub_unsubStep (sid : Nat) (e : Engine) (hid : Nat) (s : Subscription)
    (hs : findSub e sid = some s) :
    ∃ s', findSub (unsubStep sid e hid) sid = some s' := by
  unfold unsubStep
  cases hu : unsubscribe e sid hid with
  | error err => exact ⟨s, hs⟩
  | ok e' =>
      have hsubs := unsubscribe_ok e e' sid hid hu
      refine ⟨(fun s' => if s'.id = sid then
          { s' with handles := s'.handles.filter (fun hh => decide (¬ hh.1 = hid)) }
        else s') s, ?_⟩
      simp only [findSub] at hs ⊢
      rw [hsubs,
          find?_sub_map e.subs sid _
            (fun x => by by_cases hx : x.id = sid <;> simp [hx]),
          hs]
      rfl

theorem findSub_fold_unsub (sid : Nat) :
    ∀ (hids : List Nat) (e : Engine) (s : Subscription),
      findSub e sid = some s →
      ∃ s', findSub (hids.foldl (unsubStep sid) e) sid = some s' := by
  intro hids
  induction hids with
  | nil => intro e s hs; exact ⟨s, hs⟩
  | cons hid rest ih =>
      intro e s hs
      obtain ⟨s1, hs1⟩ := findSub_unsubStep sid e hid s hs
      simpa [List.foldl_cons] using ih (unsubStep sid e hid) s1 hs1

theorem shutdownSub_deletes (e : Engine) (sid : Nat) (hids : List Nat) (s : Subscription)
    (hs : findSub e sid = some s) :
    ∃ s', findSub (shutdownSub e sid hids).1 sid = some s'
      ∧ s'.state = SubState.Deleted ∧ s'.handles = [] := by
  obtain ⟨s1, hs1⟩ := findSub_fold_unsub sid hids e s hs
  have hid1 : s1.id = sid := by
    have := List.find?_some hs1
    simpa using this
  have hfst : (shutdownSub e sid hids).1
      = match deleteSubscription (hids.foldl (unsubStep sid) e) sid with
        | .ok e2 => e2
        | .error _ => hids.foldl (unsubStep sid) e := rfl
  rw [hfst]
  have hdel : deleteSubscription (hids.foldl (unsubStep sid) e) sid
      = .ok { hids.foldl (unsubStep sid) e with
                subs := (hids.foldl (unsubStep sid) e).subs.map (fun s' =>
                  if s'.id = sid then { s' with handles := [], state := SubState.Deleted }
                  else s') } := by
    simp only [deleteSubscription, hs1]
  rw [hdel]
  refine ⟨{ s1 with handles := [], state := SubState.Deleted }, ?_, rfl, rfl⟩
  simp only [findSub] at hs1 ⊢
  rw [find?_sub_map _ sid _
        (fun x => by by_cases hx : x.id = sid <;> simp [hx]),
      hs1]
  simp [hid1]

/-! ### C8: shutdown runs on every exit path -/

/-- C8: whatever caused the run loop to exit — cancellation, a signal
delivered as an exception, or an error — the teardown runs to completion:
the live subscription ends deleted with no handles, the event trace is the
full unsubscribe sequence, then the subscription deletion, then the
address-space release (in that order), and the result does not depend on
the exit cause. -/
theorem C8_shutdown_every_exit (cause : ExitCause) (e : Engine) (sid : Nat)
    (hids : List Nat) (s : Subscription) (hs : findSub e sid = some s) :
    (∃ s', findSub (runServerExit e sid hids cause).1 sid = some s'
        ∧ s'.state = SubState.Deleted ∧ s'.handles = [])
    ∧ (runServerExit e sid hids cause).2.1
        = hids.map (fun hid => TeardownEvent.unsubscribed sid hid)
          ++ [TeardownEvent.subDeleted sid, TeardownEvent.addressSpaceReleased]
    ∧ runServerExit e sid hids cause
        = ((runServerExit e sid hids ExitCause.cancelled).1,
           (runServerExit e sid hids ExitCause.cancelled).2.1, cause) := by
  refine ⟨?_, ?_, rfl⟩
  · exact shutdownSub_deletes e sid hids s hs
  · show (shutdownSub e sid hids).2 ++ [TeardownEvent.addressSpaceReleased] = _
    show (hids.map (fun hid => TeardownEvent.unsubscribed sid hid)
            ++ [TeardownEvent.subDeleted sid])
          ++ [TeardownEvent.addressSpaceReleased] = _
    rw [List.append_assoc]
    rfl

/-- Witness for C8: tearing the demonstration engine down after an error
exit deletes its subscription before the address space is released. -/
theorem C8_shutdown_every_exit_witness :
    findSub demoEngine 7 = some demoSub
    ∧ ((∃ s', findSub (runServerExit demoEngine 7 [1] ExitCause.errored).1 7 = some s'
          ∧ s'.state = SubState.Deleted ∧ s'.handles = [])
      ∧ (runServerExit demoEngine 7 [1] ExitCause.errored).2.1
          = [1].map (fun hid => TeardownEvent.unsubscribed 7 hid)
            ++ [TeardownEvent.subDeleted 7, TeardownEvent.addressSpaceReleased]
      ∧ runServerExit demoEngine 7 [1] ExitCause.errored
          = ((runServerExit demoEngine 7 [1] ExitCause.cancelled).1,
             (runServerExit demoEngine 7 [1] ExitCause.cancelled).2.1,
             ExitCause.errored)) :=
  ⟨by rfl, C8_shutdown_every_exit ExitCause.errored demoEngine 7 [1] demoSub (by rfl)⟩
